import Mathlib

/-!
# Verification of the metrics aggregation-and-export core

This development embeds the metrics engine described by the repository's
specification: counter instruments accumulating increments, per-reader
aggregation state, and periodic export with per-exporter aggregation
temporality (CUMULATIVE vs DELTA).  The repository's own source is the
driver script `src/lesson-7/configure_temporality.py`, which configures
two readers with different temporality preferences over one counter; the
aggregation engine itself lives in the SDK the script imports, so the
engine is modelled here from the specification's component design
(sections 3, 4.1-4.5 of the spec).
-/

namespace Metrics

/-- Modelled from the spec: `AggregationTemporality` — whether an aggregated
value represents a running total since instrument creation (CUMULATIVE) or
only the change since the last export (DELTA). -/
inductive Temporality where
  | cumulative
  | delta
deriving DecidableEq, Repr

/-- Modelled from the spec: lifecycle status of a Reader
(spec 4.3 state machine; RUNNING until Provider shutdown, then STOPPED). -/
inductive ReaderStatus where
  | running
  | stopped
deriving DecidableEq, Repr

/-- Modelled from the spec: the error taxonomy of section 7 visible to
instrument callers. `add` with a negative delta fails with
`invalidArgument`. -/
inductive MetricError where
  | invalidArgument
deriving DecidableEq, Repr

/-- Modelled from the spec (4.1): `add(delta)` on a counter fails with
`InvalidArgument` if delta is negative; otherwise adds delta to the
running total. -/
def counterAdd (total delta : Int) : Except MetricError Int :=
  if delta < 0 then .error .invalidArgument else .ok (total + delta)

/-- Modelled from the spec (4.2): the value of one DataPoint, given the
instrument's current running total and the reader's prior recorded total
for that instrument. CUMULATIVE: the current total. DELTA: current minus
prior. -/
def dataPoint (temp : Temporality) (cur prior : Int) : Int :=
  match temp with
  | .cumulative => cur
  | .delta => cur - prior

/-- Modelled from the spec (4.3): one export tick computes a DataPoint for
every instrument known to the Provider. `totals` are the current running
totals (one per instrument, in creation order); `prior` is the reader's
recorded prior totals (missing entries default to 0, spec 4.2). -/
def dataPoints (temp : Temporality) : List Int → List Int → List Int
  | _, [] => []
  | prior, t :: ts => dataPoint temp t (prior.headD 0) :: dataPoints temp prior.tail ts

/-- Modelled from the spec (3, 4.3): a Reader — its exporter's temporality
preference for counters, its lifecycle status, its AggregationState table
(`prior`: last-exported totals), and the batches its exporter has received
(`emitted`). -/
structure ReaderState where
  temp : Temporality
  status : ReaderStatus
  prior : List Int
  emitted : List (List Int)
deriving DecidableEq, Repr

/-- A freshly created Reader (spec 4.3: created RUNNING, AggregationState
created at first export, so initially empty). -/
def mkReader (temp : Temporality) : ReaderState :=
  { temp := temp, status := .running, prior := [], emitted := [] }

/-- Modelled from the spec (3, 4.5): the Provider's state — the running
totals of the instruments it issued and its registered Readers. -/
structure MState where
  totals : List Int
  readers : List ReaderState
deriving DecidableEq, Repr

/-- Replace the element at index `k` by `f` of it; out-of-range indices
leave the list unchanged. -/
def modifyAt {α : Type} : Nat → (α → α) → List α → List α
  | _, _, [] => []
  | 0, f, x :: xs => f x :: xs
  | k + 1, f, x :: xs => x :: modifyAt k f xs

/-- Modelled from the spec (4.2, 4.3): one export tick of one Reader.
A stopped Reader's timer is cancelled, so the tick is a no-op. Otherwise
the batch of DataPoints is computed in the exporter's preferred
temporality; for DELTA the AggregationState is set to the current totals
(spec 7: prior-total bookkeeping committed before failure is reported);
for CUMULATIVE it is not updated. `ok` is whether the exporter's export
call succeeded: on failure the batch is not delivered, but the schedule
continues. -/
def exportTick (totals : List Int) (ok : Bool) (rs : ReaderState) : ReaderState :=
  match rs.status with
  | .stopped => rs
  | .running =>
    let batch := dataPoints rs.temp rs.prior totals
    { rs with
      prior := match rs.temp with | .cumulative => rs.prior | .delta => totals
      emitted := if ok then rs.emitted ++ [batch] else rs.emitted }

/-- Modelled from the spec (4.3 STOPPED transition): stopping a Reader at
Provider shutdown — a final forced export flush, then the timer is
cancelled and the AggregationState table is released. Already-stopped
Readers are left untouched. -/
def stopReader (totals : List Int) (rs : ReaderState) : ReaderState :=
  match rs.status with
  | .stopped => rs
  | .running =>
    { rs with
      status := .stopped
      prior := []
      emitted := rs.emitted ++ [dataPoints rs.temp rs.prior totals] }

/-- Modelled from the spec (4.5): Provider `shutdown()` stops all Readers. -/
def shutdownProvider (s : MState) : MState :=
  { s with readers := s.readers.map (stopReader s.totals) }

/-- Modelled from the spec (4.5): registering a Reader with the Provider. -/
def registerReader (rs : ReaderState) (s : MState) : MState :=
  { s with readers := s.readers ++ [rs] }

/-- Modelled from the spec (6): `createCounter` — a new counter starts with
running total 0. -/
def createCounter (s : MState) : MState :=
  { s with totals := s.totals ++ [0] }

/-- An observable event of the engine: counter creation, an `add` call on
counter `k`, an export tick of reader `i` (with the exporter call's
success flag), or Provider shutdown. -/
inductive Event where
  | create
  | add (k : Nat) (d : Int)
  | tick (i : Nat) (ok : Bool)
  | shutdown
deriving DecidableEq, Repr

/-- Modelled from the spec: the engine's step function over events. An
`add` whose delta is rejected by `counterAdd` leaves the state unchanged
(spec 7: rejected synchronously, does not corrupt state). -/
def step (s : MState) : Event → MState
  | .create => createCounter s
  | .add k d =>
    match counterAdd (s.totals.getD k 0) d with
    | .error _ => s
    | .ok _ => { s with totals := modifyAt k (· + d) s.totals }
  | .tick i ok => { s with readers := modifyAt i (exportTick s.totals ok) s.readers }
  | .shutdown => shutdownProvider s

/-- Running the engine over a sequence of events. -/
def run (s : MState) (tr : List Event) : MState :=
  tr.foldl step s

/-- A Provider as configured (`metric_readers=[...]`) with no instruments
yet. -/
def mkProvider (rdrs : List ReaderState) : MState :=
  { totals := [], readers := rdrs }

/-- Sum, over the batches a reader's exporter received, of the DataPoint
values for instrument `k` (batches predating instrument `k` contribute
0). -/
def batchSum (batches : List (List Int)) (k : Nat) : Int :=
  (batches.map (fun b => b.getD k 0)).sum

/-- Events a delta Reader's telescoping invariant tolerates: no Provider
shutdown, and every tick of reader `i` has a successful export. -/
def readerTickOk (i : Nat) : Event → Bool
  | .tick j ok => j != i || ok
  | .shutdown => false
  | _ => true

/-- The Provider configured by `src/lesson-7/configure_temporality.py`:
`MeterProvider(metric_readers=[reader, reader2])`, where `reader` is bound
to the exporter preferring CUMULATIVE and `reader2` to the one preferring
DELTA. -/
def scriptProvider : MState :=
  mkProvider [mkReader .cumulative, mkReader .delta]

/-- The spec's scenario (spec 8): the counter is created, `add(5)`, one
export interval elapses (both readers tick), `add(20)`, one more interval
elapses. -/
def scenarioTrace : List Event :=
  [.create, .add 0 5, .tick 0 true, .tick 1 true, .add 0 20, .tick 0 true, .tick 1 true]

/-- Modelled from the spec: the global registry written by
`set_meter_provider` — made explicit as a value so that nothing is hidden
global mutable state (spec 9: callers pass the registry/provider
explicitly). `set_meter_provider(provider)` returns the new registry
contents. -/
def setMeterProvider (_g : Option MState) (p : MState) : Option MState :=
  some p

/-- Modelled from the spec: `get_meter_provider()` reads the registry. -/
def getMeterProvider (g : Option MState) : Option MState :=
  g

/-! ## Basic lemmas about the list helpers -/

theorem modifyAt_get?_ne {α : Type} (f : α → α) :
    ∀ (l : List α) (i j : Nat), i ≠ j → (modifyAt i f l).get? j = l.get? j
  | [], _, _, _ => by simp [modifyAt]
  | _ :: _, 0, 0, h => absurd rfl h
  | _ :: _, 0, _ + 1, _ => rfl
  | _ :: _, _ + 1, 0, _ => rfl
  | _ :: xs, i + 1, j + 1, h => by
    simpa [modifyAt] using modifyAt_get?_ne f xs i j (fun hij => h (by rw [hij]))

theorem modifyAt_get?_eq {α : Type} (f : α → α) :
    ∀ (l : List α) (i : Nat), (modifyAt i f l).get? i = (l.get? i).map f
  | [], _ => by simp [modifyAt]
  | _ :: _, 0 => by simp [modifyAt]
  | _ :: xs, i + 1 => by simpa [modifyAt] using modifyAt_get?_eq f xs i

theorem modifyAt_length {α : Type} (f : α → α) :
    ∀ (l : List α) (i : Nat), (modifyAt i f l).length = l.length
  | [], _ => by simp [modifyAt]
  | _ :: _, 0 => rfl
  | _ :: xs, i + 1 => by simpa [modifyAt] using modifyAt_length f xs i

theorem getD_eq_get? {α : Type} (d : α) :
    ∀ (l : List α) (k : Nat), l.getD k d = (l.get? k).getD d
  | [], 0 => rfl
  | [], _ + 1 => rfl
  | _ :: _, 0 => rfl
  | _ :: xs, k + 1 => getD_eq_get? d xs k

theorem getD_append_zero : ∀ (l : List Int) (k : Nat), (l ++ [0]).getD k 0 = l.getD k 0
  | [], 0 => rfl
  | [], _ + 1 => by simp [List.getD]
  | _ :: _, 0 => rfl
  | _ :: xs, k + 1 => getD_append_zero xs k

theorem tail_getD (l : List Int) (k : Nat) : l.tail.getD k 0 = l.getD (k + 1) 0 := by
  cases l <;> rfl

theorem headD_eq_getD (l : List Int) : l.headD 0 = l.getD 0 0 := by
  cases l <;> rfl

theorem getD_len_le {α : Type} (d : α) :
    ∀ (l : List α) (k : Nat), l.length ≤ k → l.getD k d = d
  | [], 0, _ => rfl
  | [], _ + 1, _ => rfl
  | _ :: xs, k + 1, h => getD_len_le d xs k (Nat.le_of_succ_le_succ h)

/-! ## Lemmas about the engine -/

theorem run_nil (s : MState) : run s [] = s := rfl

theorem run_cons (s : MState) (e : Event) (tr : List Event) :
    run s (e :: tr) = run (step s e) tr := rfl

theorem run_append (s : MState) (t₁ t₂ : List Event) :
    run s (t₁ ++ t₂) = run (run s t₁) t₂ := by
  simp [run, List.foldl_append]

theorem dataPoints_length (temp : Temporality) :
    ∀ (prior totals : List Int), (dataPoints temp prior totals).length = totals.length
  | _, [] => rfl
  | prior, _ :: ts => by simp [dataPoints, dataPoints_length temp prior.tail ts]

theorem dataPoints_getD (temp : Temporality) :
    ∀ (prior totals : List Int) (k : Nat), k < totals.length →
      (dataPoints temp prior totals).getD k 0 =
        dataPoint temp (totals.getD k 0) (prior.getD k 0)
  | prior, t :: ts, 0, _ => by cases prior <;> rfl
  | prior, t :: ts, k + 1, h => by
    have ih := dataPoints_getD temp prior.tail ts k (Nat.lt_of_succ_lt_succ h)
    show (dataPoints temp prior.tail ts).getD k 0 =
      dataPoint temp (ts.getD k 0) (prior.getD (k + 1) 0)
    rw [ih, tail_getD]

theorem dataPoints_delta_getD (prior totals : List Int)
    (hlen : prior.length ≤ totals.length) (k : Nat) :
    (dataPoints .delta prior totals).getD k 0 = totals.getD k 0 - prior.getD k 0 := by
  by_cases h : k < totals.length
  · simpa [dataPoint] using dataPoints_getD .delta prior totals k h
  · have ht : totals.length ≤ k := Nat.le_of_not_lt h
    rw [getD_len_le 0 _ _ (le_trans (le_of_eq (dataPoints_length .delta prior totals)) ht),
      getD_len_le 0 totals k ht, getD_len_le 0 prior k (le_trans hlen ht)]
    ring

theorem batchSum_append (bs : List (List Int)) (b : List Int) (k : Nat) :
    batchSum (bs ++ [b]) k = batchSum bs k + b.getD k 0 := by
  simp [batchSum]

theorem step_tick_totals (s : MState) (i : Nat) (ok : Bool) :
    (step s (.tick i ok)).totals = s.totals := rfl

theorem step_shutdown_totals (s : MState) : (step s .shutdown).totals = s.totals := rfl

theorem exportTick_running (totals : List Int) (ok : Bool) (rs : ReaderState)
    (hstat : rs.status = .running) :
    exportTick totals ok rs =
      { rs with
        prior := match rs.temp with | .cumulative => rs.prior | .delta => totals
        emitted := if ok then rs.emitted ++ [dataPoints rs.temp rs.prior totals]
                   else rs.emitted } := by
  simp [exportTick, hstat]

theorem exportTick_delta_prior (totals : List Int) (rs : ReaderState)
    (htemp : rs.temp = .delta) (hstat : rs.status = .running) :
    (exportTick totals true rs).prior = totals := by
  simp [exportTick_running totals true rs hstat, htemp]

theorem exportTick_delta_emitted_sum (totals : List Int) (rs : ReaderState)
    (htemp : rs.temp = .delta) (hstat : rs.status = .running)
    (hlen : rs.prior.length ≤ totals.length)
    (hsum : ∀ k, batchSum rs.emitted k = rs.prior.getD k 0) (k : Nat) :
    batchSum (exportTick totals true rs).emitted k = totals.getD k 0 := by
  rw [exportTick_running totals true rs hstat]
  simp only [if_pos]
  rw [batchSum_append, hsum k, htemp, dataPoints_delta_getD rs.prior totals hlen k]
  ring

/-- The telescoping invariant of a running DELTA reader is preserved by any
single event allowed by `readerTickOk`. -/
theorem delta_inv_step (s : MState) (i : Nat) (e : Event) (rs : ReaderState)
    (hget : s.readers.get? i = some rs)
    (htemp : rs.temp = .delta) (hstat : rs.status = .running)
    (hlen : rs.prior.length ≤ s.totals.length)
    (hsum : ∀ k, batchSum rs.emitted k = rs.prior.getD k 0)
    (he : readerTickOk i e = true) :
    ∃ rs', (step s e).readers.get? i = some rs' ∧ rs'.temp = .delta ∧
      rs'.status = .running ∧ rs'.prior.length ≤ (step s e).totals.length ∧
      (∀ k, batchSum rs'.emitted k = rs'.prior.getD k 0) := by
  cases e with
  | create =>
    refine ⟨rs, hget, htemp, hstat, ?_, hsum⟩
    simpa [step, createCounter] using le_trans hlen (Nat.le_succ _)
  | add k d =>
    have hr : (step s (.add k d)).readers = s.readers := by
      simp only [step]
      split <;> rfl
    have ht : (step s (.add k d)).totals.length = s.totals.length := by
      simp only [step]
      split
      · rfl
      · simp [modifyAt_length]
    exact ⟨rs, by rw [hr]; exact hget, htemp, hstat, by rw [ht]; exact hlen, hsum⟩
  | tick j ok =>
    by_cases hij : j = i
    · subst hij
      have hok : ok = true := by
        simpa [readerTickOk] using he
      subst hok
      refine ⟨exportTick s.totals true rs, ?_, ?_, ?_, ?_, ?_⟩
      · show (modifyAt j (exportTick s.totals true) s.readers).get? j =
          some (exportTick s.totals true rs)
        rw [modifyAt_get?_eq, hget]
        rfl
      · simp [exportTick_running s.totals true rs hstat, htemp]
      · simp [exportTick_running s.totals true rs hstat, hstat]
      · rw [step_tick_totals, exportTick_delta_prior s.totals rs htemp hstat]
      · intro k
        rw [exportTick_delta_emitted_sum s.totals rs htemp hstat hlen hsum k,
          exportTick_delta_prior s.totals rs htemp hstat]
    · refine ⟨rs, ?_, htemp, hstat, hlen, hsum⟩
      simpa [step] using (modifyAt_get?_ne (exportTick s.totals ok) s.readers j i hij).trans hget
  | shutdown => simp [readerTickOk] at he

/-- The telescoping invariant of a running DELTA reader is preserved by any
event sequence allowed by `readerTickOk`. -/
theorem delta_inv_run :
    ∀ (tr : List Event) (s : MState) (i : Nat) (rs : ReaderState),
      tr.all (readerTickOk i) = true →
      s.readers.get? i = some rs → rs.temp = .delta → rs.status = .running →
      rs.prior.length ≤ s.totals.length →
      (∀ k, batchSum rs.emitted k = rs.prior.getD k 0) →
      ∃ rs', (run s tr).readers.get? i = some rs' ∧ rs'.temp = .delta ∧
        rs'.status = .running ∧ rs'.prior.length ≤ (run s tr).totals.length ∧
        (∀ k, batchSum rs'.emitted k = rs'.prior.getD k 0)
  | [], s, i, rs, _, hget, htemp, hstat, hlen, hsum =>
    ⟨rs, hget, htemp, hstat, hlen, hsum⟩
  | e :: tr, s, i, rs, hall, hget, htemp, hstat, hlen, hsum => by
    have he : readerTickOk i e = true := by
      have := List.all_eq_true.1 hall e (List.mem_cons_self e tr)
      exact this
    have htr : tr.all (readerTickOk i) = true := by
      refine List.all_eq_true.2 (fun x hx => ?_)
      exact List.all_eq_true.1 hall x (List.mem_cons_of_mem e hx)
    obtain ⟨rs', h1, h2, h3, h4, h5⟩ :=
      delta_inv_step s i e rs hget htemp hstat hlen hsum he
    rw [run_cons]
    exact delta_inv_run tr (step s e) i rs' htr h1 h2 h3 h4 h5

theorem exportTick_status (totals : List Int) (ok : Bool) (rs : ReaderState) :
    (exportTick totals ok rs).status = rs.status := by
  cases h : rs.status <;> simp [exportTick, h]

theorem exportTick_emitted_false (totals : List Int) (rs : ReaderState) :
    (exportTick totals false rs).emitted = rs.emitted := by
  cases h : rs.status <;> simp [exportTick, h]

theorem stopReader_status (totals : List Int) (rs : ReaderState) :
    (stopReader totals rs).status = .stopped := by
  cases h : rs.status <;> simp [stopReader, h]

theorem stopReader_of_stopped (totals : List Int) (rs : ReaderState)
    (h : rs.status = .stopped) : stopReader totals rs = rs := by
  simp [stopReader, h]

theorem stopReader_idem (t₁ t₂ : List Int) (rs : ReaderState) :
    stopReader t₁ (stopReader t₂ rs) = stopReader t₂ rs :=
  stopReader_of_stopped t₁ _ (stopReader_status t₂ rs)

theorem step_totals_getD_mono (s : MState) (e : Event) (k : Nat) :
    s.totals.getD k 0 ≤ (step s e).totals.getD k 0 := by
  cases e with
  | create =>
    show s.totals.getD k 0 ≤ (s.totals ++ [0]).getD k 0
    rw [getD_append_zero]
  | add k' d =>
    simp only [step]
    split
    · exact le_refl _
    · rename_i a h
      have hd : 0 ≤ d := by
        by_contra hneg
        simp [counterAdd, if_pos (not_le.1 hneg)] at h
      by_cases hk : k' = k
      · subst hk
        rw [getD_eq_get?, getD_eq_get?]
        show _ ≤ ((modifyAt k' (· + d) s.totals).get? k').getD 0
        rw [modifyAt_get?_eq]
        cases hx : s.totals.get? k' with
        | none => simp
        | some x =>
          show x ≤ x + d
          exact le_add_of_nonneg_right hd
      · rw [getD_eq_get?, getD_eq_get?]
        show _ ≤ ((modifyAt k' (· + d) s.totals).get? k).getD 0
        rw [modifyAt_get?_ne _ _ _ _ hk]
  | tick i ok => exact le_refl _
  | shutdown => exact le_refl _

theorem run_totals_getD_mono :
    ∀ (tr : List Event) (s : MState) (k : Nat),
      s.totals.getD k 0 ≤ (run s tr).totals.getD k 0
  | [], _, _ => le_refl _
  | e :: tr, s, k =>
    le_trans (step_totals_getD_mono s e k) (run_totals_getD_mono tr (step s e) k)

/-! ## Claim theorems -/

/-- **C2.** Aggregator output per temporality: on an export tick of a
running Reader, if its Exporter prefers CUMULATIVE the emitted DataPoint
value equals the current total and the prior-total bookkeeping is not
updated; if it prefers DELTA the emitted value equals the current total
minus the recorded prior total (0 when no previous export recorded a
value), and afterwards the Reader's AggregationState equals the current
totals. -/
theorem aggregator_temporality (s : MState) (i : Nat) (rs : ReaderState)
    (hget : s.readers.get? i = some rs) (hrun : rs.status = .running) :
    (step s (.tick i true)).readers.get? i = some
      { rs with
        prior := match rs.temp with | .cumulative => rs.prior | .delta => s.totals
        emitted := rs.emitted ++ [dataPoints rs.temp rs.prior s.totals] } ∧
    ∀ k, k < s.totals.length →
      (dataPoints rs.temp rs.prior s.totals).getD k 0 =
        (match rs.temp with
          | .cumulative => s.totals.getD k 0
          | .delta => s.totals.getD k 0 - rs.prior.getD k 0) := by
  constructor
  · show (modifyAt i (exportTick s.totals true) s.readers).get? i = _
    rw [modifyAt_get?_eq, hget, Option.map_some', exportTick_running s.totals true rs hrun]
    simp
  · intro k hk
    rw [dataPoints_getD rs.temp rs.prior s.totals k hk]
    cases rs.temp <;> rfl

/-- Witness for C2 at a concrete state: delta reader with prior 2,
current total 7, emits 5 and its state becomes 7. -/
theorem aggregator_temporality_witness :
    ((step ⟨[7], [⟨.delta, .running, [2], []⟩]⟩ (.tick 0 true)).readers.get? 0 = some
      { temp := .delta, status := .running, prior := [7], emitted := [[5]] }) ∧
    (dataPoints .delta [2] [7]).getD 0 0 = 7 - 2 :=
  ⟨(aggregator_temporality ⟨[7], [⟨.delta, .running, [2], []⟩]⟩ 0
      ⟨.delta, .running, [2], []⟩ rfl rfl).1,
   (aggregator_temporality ⟨[7], [⟨.delta, .running, [2], []⟩]⟩ 0
      ⟨.delta, .running, [2], []⟩ rfl rfl).2 0 (by decide)⟩

/-- **C3.** Independent-temporality scenario: with one counter observed by
a CUMULATIVE Reader and a DELTA Reader, after add(5), one export interval,
add(20), one more interval, the CUMULATIVE Reader's exporter receives 5
then 25 and the DELTA Reader's exporter receives 5 then 20; each Reader's
final state is the same as in a run in which the other Reader never
ticks. -/
theorem independent_temporality_scenario :
    ((run scriptProvider scenarioTrace).readers.map (fun r => r.emitted) =
      [[[5], [25]], [[5], [20]]]) ∧
    (run scriptProvider
        [.create, .add 0 5, .tick 0 true, .add 0 20, .tick 0 true]).readers.get? 0 =
      (run scriptProvider scenarioTrace).readers.get? 0 ∧
    (run scriptProvider
        [.create, .add 0 5, .tick 1 true, .add 0 20, .tick 1 true]).readers.get? 1 =
      (run scriptProvider scenarioTrace).readers.get? 1 := by
  decide

/-- **C4.** Monotonic, export-read-only running total: across any event
sequence every instrument's running total is non-decreasing, and neither
an export tick nor shutdown changes the totals at all. -/
theorem total_monotonic_export_readonly :
    (∀ (s : MState) (tr : List Event) (k : Nat),
      s.totals.getD k 0 ≤ (run s tr).totals.getD k 0) ∧
    (∀ (s : MState) (i : Nat) (ok : Bool), (step s (.tick i ok)).totals = s.totals) ∧
    (∀ s : MState, (step s .shutdown).totals = s.totals) :=
  ⟨fun s tr k => run_totals_getD_mono tr s k, fun _ _ _ => rfl, fun _ => rfl⟩

/-- **C5.** Negative-increment rejection with atomicity: a negative delta
makes `add` fail with InvalidArgument and leaves the whole state
unchanged; a non-negative delta succeeds and adds the delta to the
running total, touching nothing else. -/
theorem add_negative_rejected (s : MState) (k : Nat) (d : Int) :
    (d < 0 → counterAdd (s.totals.getD k 0) d = .error .invalidArgument ∧
      step s (.add k d) = s) ∧
    (0 ≤ d → counterAdd (s.totals.getD k 0) d = .ok (s.totals.getD k 0 + d) ∧
      (step s (.add k d)).totals = modifyAt k (· + d) s.totals ∧
      (step s (.add k d)).readers = s.readers) := by
  constructor
  · intro hd
    have hc : counterAdd (s.totals.getD k 0) d = .error .invalidArgument := by
      simp [counterAdd, hd]
    refine ⟨hc, ?_⟩
    simp only [step]
    rw [hc]
  · intro hd
    have hc : counterAdd (s.totals.getD k 0) d = .ok (s.totals.getD k 0 + d) := by
      simp [counterAdd, not_lt.2 hd]
    refine ⟨hc, ?_, ?_⟩ <;> (simp only [step]; rw [hc])

/-- Witness for C5: `add(-1)` on total 3 is rejected and changes nothing;
`add(2)` succeeds. -/
theorem add_negative_rejected_witness :
    (counterAdd ((⟨[3], []⟩ : MState).totals.getD 0 0) (-1) = .error .invalidArgument ∧
      step ⟨[3], []⟩ (.add 0 (-1)) = ⟨[3], []⟩) ∧
    (counterAdd ((⟨[3], []⟩ : MState).totals.getD 0 0) 2 =
        .ok ((⟨[3], []⟩ : MState).totals.getD 0 0 + 2) ∧
      (step ⟨[3], []⟩ (.add 0 2)).totals = modifyAt 0 (· + 2) (⟨[3], []⟩ : MState).totals ∧
      (step ⟨[3], []⟩ (.add 0 2)).readers = (⟨[3], []⟩ : MState).readers) :=
  ⟨(add_negative_rejected ⟨[3], []⟩ 0 (-1)).1 (by decide),
   (add_negative_rejected ⟨[3], []⟩ 0 2).2 (by decide)⟩

/-- **C1.** Telescoping sum: for every Reader created with DELTA preference
and every sequence of valid increments and export ticks (all of that
Reader's exports succeeding, no shutdown), at any of that Reader's export
times T the sum of all DELTA DataPoint values emitted to that Reader since
its creation equals the CUMULATIVE DataPoint value at T for the same
instrument. -/
theorem telescoping_sum (rdrs : List ReaderState) (i : Nat) (tr : List Event)
    (hi : rdrs.get? i = some (mkReader .delta))
    (htr : tr.all (readerTickOk i) = true) :
    ∃ rs, (run (mkProvider rdrs) (tr ++ [.tick i true])).readers.get? i = some rs ∧
      ∀ k, batchSum rs.emitted k =
        dataPoint .cumulative
          ((run (mkProvider rdrs) (tr ++ [.tick i true])).totals.getD k 0) 0 := by
  obtain ⟨rs', h1, h2, h3, h4, h5⟩ :=
    delta_inv_run tr (mkProvider rdrs) i (mkReader .delta) htr hi rfl rfl
      (Nat.zero_le _) (fun k => by simp [batchSum, mkReader, List.getD])
  rw [run_append]
  refine ⟨exportTick (run (mkProvider rdrs) tr).totals true rs', ?_, ?_⟩
  · show (modifyAt i (exportTick (run (mkProvider rdrs) tr).totals true)
        (run (mkProvider rdrs) tr).readers).get? i = _
    rw [modifyAt_get?_eq, h1]
    rfl
  · intro k
    show batchSum (exportTick (run (mkProvider rdrs) tr).totals true rs').emitted k =
      dataPoint .cumulative
        ((step (run (mkProvider rdrs) tr) (.tick i true)).totals.getD k 0) 0
    rw [step_tick_totals,
      exportTick_delta_emitted_sum (run (mkProvider rdrs) tr).totals rs' h2 h3 h4 h5 k]
    rfl

/-- Witness for C1 at a concrete Reader and trace. -/
theorem telescoping_sum_witness :
    ∃ rs, (run (mkProvider [mkReader .delta])
        ([.create, .add 0 5, .tick 0 true, .add 0 20] ++ [.tick 0 true])).readers.get? 0 =
          some rs ∧
      ∀ k, batchSum rs.emitted k =
        dataPoint .cumulative
          ((run (mkProvider [mkReader .delta])
            ([.create, .add 0 5, .tick 0 true, .add 0 20] ++
              [.tick 0 true])).totals.getD k 0) 0 :=
  telescoping_sum [mkReader .delta] 0 [.create, .add 0 5, .tick 0 true, .add 0 20]
    (by decide) (by decide)

/-- **C6.** No suppression of unchanged points: on every export tick of a
running Reader a DataPoint is produced for every Instrument known to the
Provider and the batch is emitted, even when the total has not changed
since the prior export — then DELTA yields 0 and CUMULATIVE the unchanged
total. -/
theorem no_suppression (s : MState) (i : Nat) (rs : ReaderState)
    (hget : s.readers.get? i = some rs) (hrun : rs.status = .running) :
    ((step s (.tick i true)).readers.get? i).map (fun r => r.emitted) =
      some (rs.emitted ++ [dataPoints rs.temp rs.prior s.totals]) ∧
    (dataPoints rs.temp rs.prior s.totals).length = s.totals.length ∧
    (∀ k, k < s.totals.length → rs.prior.getD k 0 = s.totals.getD k 0 →
      (dataPoints rs.temp rs.prior s.totals).getD k 0 =
        (match rs.temp with
          | .cumulative => s.totals.getD k 0
          | .delta => 0)) := by
  refine ⟨?_, dataPoints_length rs.temp rs.prior s.totals, ?_⟩
  · show ((modifyAt i (exportTick s.totals true) s.readers).get? i).map _ = _
    rw [modifyAt_get?_eq, hget, Option.map_some', Option.map_some',
      exportTick_running s.totals true rs hrun]
    simp
  · intro k hk hprior
    rw [dataPoints_getD rs.temp rs.prior s.totals k hk, hprior]
    cases rs.temp
    · rfl
    · show s.totals.getD k 0 - s.totals.getD k 0 = 0
      ring

/-- Witness for C6: a delta reader whose prior equals the unchanged total 4
still emits a batch, whose DataPoint is 0. -/
theorem no_suppression_witness :
    ((step ⟨[4], [⟨.delta, .running, [4], [[4]]⟩]⟩ (.tick 0 true)).readers.get? 0).map
        (fun r => r.emitted) = some ([[4]] ++ [dataPoints .delta [4] [4]]) ∧
    (dataPoints .delta [4] [4]).length = 1 ∧
    (dataPoints .delta [4] [4]).getD 0 0 = 0 :=
  ⟨(no_suppression ⟨[4], [⟨.delta, .running, [4], [[4]]⟩]⟩ 0
      ⟨.delta, .running, [4], [[4]]⟩ rfl rfl).1,
   (no_suppression ⟨[4], [⟨.delta, .running, [4], [[4]]⟩]⟩ 0
      ⟨.delta, .running, [4], [[4]]⟩ rfl rfl).2.1,
   (no_suppression ⟨[4], [⟨.delta, .running, [4], [[4]]⟩]⟩ 0
      ⟨.delta, .running, [4], [[4]]⟩ rfl rfl).2.2 0 (by decide) (by decide)⟩

/-- **C7.** Export failure isolation: a tick of one Reader (successful or
failed) leaves every other Reader and the totals untouched; a failed tick
leaves the failing Reader's status (its schedule) and its delivered
batches unchanged — the failed batch is not retried; and after a failed
tick the next successful tick of a running Reader delivers exactly one
new batch. -/
theorem export_failure_isolation :
    (∀ (s : MState) (i j : Nat) (ok : Bool), i ≠ j →
      (step s (.tick i ok)).readers.get? j = s.readers.get? j ∧
      (step s (.tick i ok)).totals = s.totals) ∧
    (∀ (s : MState) (i : Nat) (rs : ReaderState), s.readers.get? i = some rs →
      ((step s (.tick i false)).readers.get? i).map (fun r => r.status) =
        some rs.status ∧
      ((step s (.tick i false)).readers.get? i).map (fun r => r.emitted) =
        some rs.emitted) ∧
    (∀ (s : MState) (i : Nat) (rs : ReaderState), s.readers.get? i = some rs →
      rs.status = .running →
      ((step (step s (.tick i false)) (.tick i true)).readers.get? i).map
        (fun r => r.emitted.length) = some (rs.emitted.length + 1)) := by
  refine ⟨?_, ?_, ?_⟩
  · intro s i j ok hij
    exact ⟨modifyAt_get?_ne _ s.readers i j hij, rfl⟩
  · intro s i rs hget
    have h1 : (step s (.tick i false)).readers.get? i =
        some (exportTick s.totals false rs) := by
      show (modifyAt i (exportTick s.totals false) s.readers).get? i = _
      rw [modifyAt_get?_eq, hget, Option.map_some']
    constructor
    · rw [h1, Option.map_some', exportTick_status]
    · rw [h1, Option.map_some', exportTick_emitted_false]
  · intro s i rs hget hrun
    have h1 : (step s (.tick i false)).readers.get? i =
        some (exportTick s.totals false rs) := by
      show (modifyAt i (exportTick s.totals false) s.readers).get? i = _
      rw [modifyAt_get?_eq, hget, Option.map_some']
    have h2 : (step (step s (.tick i false)) (.tick i true)).readers.get? i =
        some (exportTick (step s (.tick i false)).totals true
          (exportTick s.totals false rs)) := by
      show (modifyAt i (exportTick (step s (.tick i false)).totals true)
          (step s (.tick i false)).readers).get? i = _
      rw [modifyAt_get?_eq, h1, Option.map_some']
    have hst1 : (exportTick s.totals false rs).status = .running := by
      rw [exportTick_status]
      exact hrun
    rw [h2, Option.map_some', exportTick_running _ true _ hst1]
    simp [exportTick_emitted_false]

/-- Witness for C7 at a concrete two-reader state. -/
theorem export_failure_isolation_witness :
    ((step ⟨[5], [mkReader .cumulative, mkReader .delta]⟩ (.tick 0 false)).readers.get? 1 =
        (⟨[5], [mkReader .cumulative, mkReader .delta]⟩ : MState).readers.get? 1 ∧
      (step ⟨[5], [mkReader .cumulative, mkReader .delta]⟩ (.tick 0 false)).totals =
        (⟨[5], [mkReader .cumulative, mkReader .delta]⟩ : MState).totals) ∧
    (((step ⟨[5], [mkReader .cumulative, mkReader .delta]⟩ (.tick 0 false)).readers.get? 0).map
        (fun r => r.status) = some .running ∧
      ((step ⟨[5], [mkReader .cumulative, mkReader .delta]⟩ (.tick 0 false)).readers.get? 0).map
        (fun r => r.emitted) = some []) ∧
    ((step (step ⟨[5], [mkReader .cumulative, mkReader .delta]⟩ (.tick 0 false))
        (.tick 0 true)).readers.get? 0).map (fun r => r.emitted.length) = some 1 :=
  ⟨export_failure_isolation.1 ⟨[5], [mkReader .cumulative, mkReader .delta]⟩ 0 1 false
      (by decide),
   export_failure_isolation.2.1 ⟨[5], [mkReader .cumulative, mkReader .delta]⟩ 0
      (mkReader .cumulative) rfl,
   export_failure_isolation.2.2 ⟨[5], [mkReader .cumulative, mkReader .delta]⟩ 0
      (mkReader .cumulative) rfl rfl⟩

/-- **C8.** Idempotent shutdown: shutting the Provider down twice yields
the same terminal state as once (and raises nothing: `shutdownProvider`
is a total function); afterwards every Reader is STOPPED, and when all
Readers were running their AggregationState tables are released. -/
theorem shutdown_idempotent :
    (∀ s : MState, shutdownProvider (shutdownProvider s) = shutdownProvider s) ∧
    (∀ s : MState,
      (shutdownProvider s).readers.all (fun rs => rs.status == .stopped) = true) ∧
    (∀ s : MState, s.readers.all (fun rs => rs.status == .running) = true →
      (shutdownProvider s).readers.all
        (fun rs => rs.status == .stopped && rs.prior.isEmpty) = true) := by
  refine ⟨?_, ?_, ?_⟩
  · intro s
    simp only [shutdownProvider, List.map_map]
    congr 1
    exact List.map_congr_left (fun a _ => stopReader_idem _ _ a)
  · intro s
    rw [shutdownProvider, List.all_eq_true]
    intro x hx
    rw [List.mem_map] at hx
    obtain ⟨a, _, rfl⟩ := hx
    simp [stopReader_status]
  · intro s hall
    rw [shutdownProvider, List.all_eq_true]
    intro x hx
    rw [List.mem_map] at hx
    obtain ⟨a, ha, rfl⟩ := hx
    have hr : a.status = .running := by
      simpa using List.all_eq_true.1 hall a ha
    simp [stopReader, hr]

/-- Witness for C8 on the script's Provider. -/
theorem shutdown_idempotent_witness :
    shutdownProvider (shutdownProvider scriptProvider) = shutdownProvider scriptProvider ∧
    (shutdownProvider scriptProvider).readers.all (fun rs => rs.status == .stopped) = true ∧
    (shutdownProvider scriptProvider).readers.all
      (fun rs => rs.status == .stopped && rs.prior.isEmpty) = true :=
  ⟨shutdown_idempotent.1 scriptProvider, shutdown_idempotent.2.1 scriptProvider,
   shutdown_idempotent.2.2 scriptProvider (by decide)⟩

/-- **C9.** No implicit global Provider state: Providers are plain values
of `MState`; in a world holding any number of independent Provider
instances, creating an instrument on one, registering a Reader with one,
shutting one down, or running any event sequence against one leaves every
other instance's state unchanged. -/
theorem provider_no_global_state (w : List MState) (p q : Nat) (rs : ReaderState)
    (tr : List Event) (hpq : p ≠ q) :
    (modifyAt p createCounter w).get? q = w.get? q ∧
    (modifyAt p (registerReader rs) w).get? q = w.get? q ∧
    (modifyAt p shutdownProvider w).get? q = w.get? q ∧
    (modifyAt p (fun s => run s tr) w).get? q = w.get? q :=
  ⟨modifyAt_get?_ne _ w p q hpq, modifyAt_get?_ne _ w p q hpq,
   modifyAt_get?_ne _ w p q hpq, modifyAt_get?_ne _ w p q hpq⟩

/-- Witness for C9 with two coexisting Providers. -/
theorem provider_no_global_state_witness :
    (modifyAt 0 createCounter [scriptProvider, mkProvider []]).get? 1 =
      [scriptProvider, mkProvider []].get? 1 ∧
    (modifyAt 0 (registerReader (mkReader .delta)) [scriptProvider, mkProvider []]).get? 1 =
      [scriptProvider, mkProvider []].get? 1 ∧
    (modifyAt 0 shutdownProvider [scriptProvider, mkProvider []]).get? 1 =
      [scriptProvider, mkProvider []].get? 1 ∧
    (modifyAt 0 (fun s => run s [.create]) [scriptProvider, mkProvider []]).get? 1 =
      [scriptProvider, mkProvider []].get? 1 :=
  provider_no_global_state [scriptProvider, mkProvider []] 0 1 (mkReader .delta)
    [.create] (by decide)

/-- **C10.** Global provider round-trip: after `set_meter_provider p`,
`get_meter_provider` returns `p`; so with the script's Provider (holding
the CUMULATIVE and the DELTA reader) registered, a counter created
through it is observed by both readers' exporters — after `add(5)` and
one tick of each reader, both exporters received the value 5. -/
theorem global_provider_roundtrip :
    (∀ (g : Option MState) (p : MState),
      getMeterProvider (setMeterProvider g p) = some p) ∧
    getMeterProvider (setMeterProvider none scriptProvider) = some scriptProvider ∧
    ((run scriptProvider [.create, .add 0 5, .tick 0 true, .tick 1 true]).readers.map
      (fun r => r.emitted) = [[[5]], [[5]]]) :=
  ⟨fun _ _ => rfl, rfl, by decide⟩

end Metrics
